import Mathlib

/-!
Shallow embedding of the rugby statistics application
(src/rugby_stats_app_v5_main.py).  The SQLite tables of `SCHEMA` are
modelled as lists of row structures, SQLite REAL values as rationals,
the page actions (`page_players`, `page_metrics`, `page_hotkeys`,
`page_logger`) as state-transforming functions on the database state,
and the report queries of `page_reports` as pure functions.
-/

namespace RugbyStats

/-- Row of the `players` table. -/
structure Player where
  id : Nat
  name : String
  position : String
  active : Bool
deriving Repr, DecidableEq

/-- Row of the `metrics` table; `weight` is a nullable REAL column,
modelled as `Option ℚ`. -/
structure Metric where
  id : Nat
  name : String
  label : String
  group_name : String
  type : String
  per80 : Bool
  weight : Option ℚ
  active : Bool
deriving Repr, DecidableEq

/-- Row of the `matches` table. -/
structure MatchRow where
  id : Nat
  opponent : String
  date : String
deriving Repr, DecidableEq

/-- Row of the `events` table; `ts` abstracts the TEXT timestamp. -/
structure Event where
  id : Nat
  match_id : Nat
  player_id : Nat
  metric_id : Nat
  value : ℚ
  ts : Nat
deriving Repr, DecidableEq

/-- Row of the `hotkeys` table (`key TEXT PRIMARY KEY, metric_id`). -/
structure Hotkey where
  key : String
  metric_id : Nat
deriving Repr, DecidableEq

/-- The database state: one list of rows per table used by the claims.
`matchRows` models the `matches` table (`matches` is a reserved word in
Lean). -/
structure DB where
  players : List Player
  metrics : List Metric
  matchRows : List MatchRow
  events : List Event
  hotkeys : List Hotkey
deriving Repr, DecidableEq

/-- Python's `str.strip()`: leading and trailing whitespace removed. -/
def strip (s : String) : String :=
  ⟨((s.data.dropWhile Char.isWhitespace).reverse.dropWhile Char.isWhitespace).reverse⟩

/-- SELECT of a player row by id (`JOIN players p ON p.id = ...`). -/
def findPlayer (db : DB) (pid : Nat) : Option Player :=
  db.players.find? (fun p => p.id == pid)

/-- SELECT of a metric row by id (`JOIN metrics m ON m.id = ...`). -/
def findMetric (db : DB) (mid : Nat) : Option Metric :=
  db.metrics.find? (fun m => m.id == mid)

/-! ## Page operations (mutations) -/

/-- Roles allowed to manage players in `page_players`:
`if role in ("admin", "editor")`. -/
def canEditPlayers (role : String) : Bool :=
  role == "admin" || role == "editor"

/-- Add Player action of `page_players`: gated on admin/editor, rejects a
blank name, strips whitespace, inserts an active player row. -/
def addPlayer (db : DB) (role : String) (name pos : String) (nextId : Nat) : DB :=
  if canEditPlayers role then
    if strip name = "" then db
    else { db with players := db.players ++ [⟨nextId, strip name, strip pos, true⟩] }
  else db

/-- Delete Player action of `page_players`:
`DELETE FROM players WHERE id=?` — only the players row is removed;
no cascading delete of events is performed. -/
def deletePlayer (db : DB) (role : String) (pid : Nat) : DB :=
  if canEditPlayers role then
    { db with players := db.players.filter (fun p => p.id != pid) }
  else db

/-- Errors surfaced by the Add Metric form of `page_metrics`. -/
inductive AddMetricError where
  | validation
  | duplicateKey
deriving Repr, DecidableEq

/-- Create Metric action of `page_metrics`: admin only, Key and Label
required, then an INSERT that hits the UNIQUE constraint on
`metrics.name` (sqlite3.IntegrityError caught, transaction rolled back,
table unchanged).  The returned pair is (resulting table state, error). -/
def addMetric (db : DB) (role : String) (key label grp : String)
    (per80 : Bool) (weight : ℚ) (nextId : Nat) : DB × Option AddMetricError :=
  if role != "admin" then (db, none)
  else if strip key = "" || strip label = "" then (db, some .validation)
  else if db.metrics.any (fun m => m.name == strip key) then (db, some .duplicateKey)
  else ({ db with metrics :=
            db.metrics ++ [⟨nextId, strip key, strip label, grp, "count", per80, some weight, true⟩] },
        none)

/-- Save Mapping action of `page_hotkeys`:
`INSERT OR REPLACE INTO hotkeys(key, metric_id)` — admin only; the
conflicting row with the same primary key is deleted and the new row
inserted. -/
def bindHotkey (db : DB) (role : String) (sym : String) (mid : Nat) : DB :=
  if role == "admin" then
    { db with hotkeys := (db.hotkeys.filter (fun h => h.key != sym)) ++ [⟨sym, mid⟩] }
  else db

/-- Event insertion of `page_logger` / `components_live_logger`:
`INSERT INTO events(match_id,player_id,metric_id,value) VALUES(?,?,?,1)`.
The schema declares no FOREIGN KEY constraints and no foreign-key pragma
is set, so the insert succeeds regardless of whether the referenced
rows exist. -/
def logEvent (db : DB) (mid pid metid : Nat) (nextId now : Nat) : DB :=
  { db with events := db.events ++ [⟨nextId, mid, pid, metid, 1, now⟩] }

/-- The logger page's event button: `page_logger` receives `role` but
performs no role check before inserting. -/
def loggerLogEvent (db : DB) (role : String) (mid pid metid : Nat)
    (nextId now : Nat) : DB :=
  logEvent db mid pid metid nextId now

/-- Create/Use Match action of `page_logger`: empty opponent is rejected
(`none`); otherwise `SELECT id FROM matches WHERE opponent=? AND date=?`
reuses the first matching row's id without inserting, else exactly one
new row is inserted and its id returned. -/
def createOrUseMatch (db : DB) (opponent date : String) (nextId : Nat) :
    Option (Nat × DB) :=
  if strip opponent = "" then none
  else
    match db.matchRows.find? (fun m => m.opponent == strip opponent && m.date == date) with
    | some m => some (m.id, db)
    | none =>
        some (nextId, { db with matchRows := db.matchRows ++ [⟨nextId, strip opponent, date⟩] })

/-! ## Report queries (`page_reports`) -/

/-- Events surviving the joins of the totals query
(`JOIN players p ON p.id=e.player_id JOIN metrics m ON m.id=e.metric_id`). -/
def joinedEvents (db : DB) : List Event :=
  db.events.filter (fun e => (findPlayer db e.player_id).isSome && (findMetric db e.metric_id).isSome)

/-- SUM(e.value) for the group (p.id, m.id) of the totals query. -/
def totalFor (db : DB) (pid mid : Nat) : ℚ :=
  (((joinedEvents db).filter (fun e => e.player_id == pid && e.metric_id == mid)).map
    (fun e => e.value)).sum

/-- The grouping keys (p.id, m.id) present in the totals query result. -/
def totalsPairs (db : DB) : List (Nat × Nat) :=
  ((joinedEvents db).map (fun e => (e.player_id, e.metric_id))).dedup

/-- The totals query result: one row (player name, metric label, total)
per (p.id, m.id) group with at least one joined event. -/
def reportTotals (db : DB) : List (String × String × ℚ) :=
  (totalsPairs db).filterMap (fun pm =>
    match findPlayer db pm.1, findMetric db pm.2 with
    | some p, some m => some (p.name, m.label, totalFor db pm.1 pm.2)
    | _, _ => none)

/-- Sum of `value` over all events of a (player id, metric id) pair,
straight off the full event log (no join). -/
def sumValuesAll (db : DB) (pid mid : Nat) : ℚ :=
  ((db.events.filter (fun e => e.player_id == pid && e.metric_id == mid)).map
    (fun e => e.value)).sum

/-- Truncation toward zero performed by `DataFrame.astype(int)`. -/
def truncQ (q : ℚ) : ℤ :=
  if 0 ≤ q then ⌊q⌋ else ⌈q⌉

/-- Cell of the totals pivot (`df.pivot(index=player, columns=metric,
values=total).fillna(0)`), keyed by player name and metric label as the
DataFrame is; an absent (player, metric) combination is the zero-filled
empty sum. -/
def pivotCell (db : DB) (pname mlabel : String) : ℚ :=
  (((joinedEvents db).filter (fun e =>
      ((findPlayer db e.player_id).map (fun p => p.name) == some pname) &&
      ((findMetric db e.metric_id).map (fun m => m.label) == some mlabel))).map
    (fun e => e.value)).sum

/-- Pivot cell after `.fillna(0).astype(int)`. -/
def pivotCellInt (db : DB) (pname mlabel : String) : ℤ :=
  truncQ (pivotCell db pname mlabel)

/-- Row index of the totals pivot: names of players with a joined event. -/
def pivotPlayerNames (db : DB) : List String :=
  ((joinedEvents db).filterMap (fun e => (findPlayer db e.player_id).map (fun p => p.name))).dedup

/-- Column index of the totals pivot: labels of metrics with a joined event. -/
def pivotMetricLabels (db : DB) : List String :=
  ((joinedEvents db).filterMap (fun e => (findMetric db e.metric_id).map (fun m => m.label))).dedup

/-! ### Per-80 block of `page_reports` -/

/-- Labels of per-80 metrics:
`SELECT label FROM metrics WHERE per80=1 AND active=1`. -/
def per80Labels (db : DB) : List String :=
  (db.metrics.filter (fun m => m.per80 && m.active)).map (fun m => m.label)

/-- Events of the dedicated `minutes` metric surviving the joins of the
minutes query. -/
def minutesEvents (db : DB) : List Event :=
  (joinedEvents db).filter
    (fun e => ((findMetric db e.metric_id).map (fun m => m.name)) == some "minutes")

/-- Result of the minutes query: (player name, SUM(e.value)) grouped by
p.id over events of the `minutes` metric. -/
def minutesTable (db : DB) : List (String × ℚ) :=
  (((minutesEvents db).map (fun e => e.player_id)).dedup).filterMap (fun pid =>
    (findPlayer db pid).map (fun p =>
      (p.name,
       (((minutesEvents db).filter (fun e => e.player_id == pid)).map (fun e => e.value)).sum)))

/-- Events surviving the single join of the fallback minutes query
(which joins players only, not metrics). -/
def playerJoinedEvents (db : DB) : List Event :=
  db.events.filter (fun e => (findPlayer db e.player_id).isSome)

/-- Result of the fallback minutes query:
`COUNT(DISTINCT e.match_id) * 80.0` grouped by p.id. -/
def approxMinutesTable (db : DB) : List (String × ℚ) :=
  (((playerJoinedEvents db).map (fun e => e.player_id)).dedup).filterMap (fun pid =>
    (findPlayer db pid).map (fun p =>
      (p.name,
       ((((playerJoinedEvents db).filter (fun e => e.player_id == pid)).map
           (fun e => e.match_id)).dedup.length : ℚ) * 80)))

/-- The minutes series used by the per-80 block: the minutes query result
when non-empty, else the fallback approximation (`if minutes_df.empty`). -/
def minutesFor (db : DB) : List (String × ℚ) :=
  if minutesTable db = [] then approxMinutesTable db else minutesTable db

/-- Raw minutes value for a player name (the mins Series lookup). -/
def rawMins (db : DB) (pname : String) : Option ℚ :=
  ((minutesFor db).find? (fun kv => kv.1 == pname)).map (fun kv => kv.2)

/-- `mins.replace(0, pd.NA)` composed with Series index alignment: a zero
or absent minutes entry becomes NA (`none`). -/
def minsLookup (db : DB) (pname : String) : Option ℚ :=
  match rawMins db pname with
  | some q => if q = 0 then none else some q
  | none => none

/-- Columns of the per-80 DataFrame: totals columns that are in the
per-80 label list. -/
def per80ViewCols (db : DB) : List String :=
  (pivotMetricLabels db).filter (fun l => (per80Labels db).contains l)

/-- Per-80 cell: `(totals[col] / mins.replace(0, NA)) * 80.0` followed by
`.replace([NA, NaT], 0).fillna(0)` — an NA denominator yields 0. -/
def per80Rate (db : DB) (pname mlabel : String) : ℚ :=
  match minsLookup db pname with
  | some m => ((pivotCellInt db pname mlabel : ℚ) / m) * 80
  | none => 0

/-! ### Leaderboard block of `page_reports` -/

/-- The weights dict: `SELECT label, COALESCE(weight,0) AS weight FROM
metrics WHERE active=1`, zipped into a Python dict (a later duplicate
label overwrites an earlier one). -/
def weightsDict (db : DB) : List (String × ℚ) :=
  (db.metrics.filter (fun m => m.active)).map (fun m => (m.label, m.weight.getD 0))

/-- `weights.get(col, 0.0)`: dict lookup (last binding wins), default 0. -/
def lookupWeight (db : DB) (lbl : String) : ℚ :=
  match (weightsDict db).reverse.find? (fun kv => kv.1 == lbl) with
  | some kv => kv.2
  | none => 0

/-- Score column: row-sum of `totals.mul(w_series, axis=1)`. -/
def scoreFor (db : DB) (pname : String) : ℚ :=
  ((pivotMetricLabels db).map (fun lbl => (pivotCellInt db pname lbl : ℚ) * lookupWeight db lbl)).sum

/-- Ordering used by the leaderboard display: descending score. -/
def scoreGE (a b : String × ℚ) : Prop :=
  b.2 ≤ a.2

instance : DecidableRel scoreGE :=
  fun a b => inferInstanceAs (Decidable (b.2 ≤ a.2))

instance : IsTotal (String × ℚ) scoreGE :=
  ⟨fun a b => le_total b.2 a.2⟩

instance : IsTrans (String × ℚ) scoreGE :=
  ⟨fun _ _ _ h1 h2 => le_trans h2 h1⟩

/-- The leaderboard table: (player, Score) rows sorted descending by
score (`sort_values("Score", ascending=False)`). -/
def leaderboard (db : DB) : List (String × ℚ) :=
  List.insertionSort scoreGE ((pivotPlayerNames db).map (fun n => (n, scoreFor db n)))

/-! ### Claim-side (spec) definitions, for the refinement claims -/

/-- Claim-side leaderboard score of a player: the sum over all active
metrics of the player's total for the metric times the metric's weight,
a missing weight contributing 0. -/
def specScore (db : DB) (P : Player) : ℚ :=
  ((db.metrics.filter (fun m => m.active)).map (fun m =>
    sumValuesAll db P.id m.id * m.weight.getD 0)).sum

/-- Claim-side test for the presence of logged `minutes` values. -/
def specMinutesPresent (db : DB) : Bool :=
  db.events.any (fun e => ((findMetric db e.metric_id).map (fun m => m.name)) == some "minutes")

/-- Claim-side minutes played of a player: the sum of the player's logged
`minutes` values when any `minutes` values are logged, otherwise the
number of distinct matches the player has any event in, times 80. -/
def specMinutesPlayed (db : DB) (P : Player) : ℚ :=
  if specMinutesPresent db then
    ((db.events.filter (fun e => e.player_id == P.id &&
        ((findMetric db e.metric_id).map (fun m => m.name)) == some "minutes")).map
      (fun e => e.value)).sum
  else
    (((db.events.filter (fun e => e.player_id == P.id)).map
        (fun e => e.match_id)).dedup.length : ℚ) * 80

/-- Catalog well-formedness: primary keys are unique (guaranteed by
INTEGER PRIMARY KEY) and display names/labels do not collide (required
by the pandas pivot, which errors on duplicate index/column pairs). -/
def CatalogOK (db : DB) : Prop :=
  (db.players.map Player.id).Nodup ∧ (db.players.map Player.name).Nodup ∧
  (db.metrics.map Metric.id).Nodup ∧ (db.metrics.map Metric.label).Nodup

instance (db : DB) : Decidable (CatalogOK db) := by
  unfold CatalogOK
  infer_instance

/-- Folding a sequence of admin Save Mapping actions over a state. -/
def runBinds (db : DB) (ops : List (String × Nat)) : DB :=
  ops.foldl (fun d op => bindHotkey d "admin" op.1 op.2) db

/-! ## Concrete states used by witnesses and counterexamples -/

/-- Catalog with a tackle and a try metric, player P1, one match, and
3 tackle events plus 1 try event for P1 (the end-to-end scenario). -/
def dbScenario : DB :=
  { players := [⟨1, "P1", "", true⟩]
    metrics := [⟨1, "tackle", "Tackle", "Defense", "count", true, some 1, true⟩,
                ⟨2, "try", "Try", "Scoring", "count", true, some 5, true⟩,
                ⟨3, "conversions", "Conversions", "Scoring", "count", true, some 2, true⟩]
    matchRows := [⟨1, "M1", "2026-01-01"⟩]
    events := [⟨1, 1, 1, 1, 1, 0⟩, ⟨2, 1, 1, 1, 1, 1⟩, ⟨3, 1, 1, 1, 1, 2⟩,
               ⟨4, 1, 1, 2, 1, 3⟩]
    hotkeys := [] }

/-- State for the per-80 scenario: no minutes metric, P1 with 8 carry
events spread over exactly 2 distinct matches. -/
def dbPer80 : DB :=
  { players := [⟨1, "P1", "", true⟩]
    metrics := [⟨1, "carries_made", "Carries Made", "Attack", "count", true, some 1, true⟩]
    matchRows := [⟨1, "M1", "2026-01-01"⟩, ⟨2, "M2", "2026-01-08"⟩]
    events := [⟨1, 1, 1, 1, 1, 0⟩, ⟨2, 1, 1, 1, 1, 1⟩, ⟨3, 1, 1, 1, 1, 2⟩,
               ⟨4, 1, 1, 1, 1, 3⟩, ⟨5, 2, 1, 1, 1, 4⟩, ⟨6, 2, 1, 1, 1, 5⟩,
               ⟨7, 2, 1, 1, 1, 6⟩, ⟨8, 2, 1, 1, 1, 7⟩]
    hotkeys := [] }

/-- State with a `minutes` metric whose only logged value for P1 is 0,
plus carry events, so P1's derived minutes are zero. -/
def dbZeroMinutes : DB :=
  { players := [⟨1, "P1", "", true⟩]
    metrics := [⟨1, "minutes", "Minutes", "Other", "count", false, none, true⟩,
                ⟨2, "carries_made", "Carries Made", "Attack", "count", true, some 1, true⟩]
    matchRows := [⟨1, "M1", "2026-01-01"⟩]
    events := [⟨1, 1, 1, 1, 0, 0⟩, ⟨2, 1, 1, 2, 1, 1⟩, ⟨3, 1, 1, 2, 1, 2⟩]
    hotkeys := [] }

/-- Catalog holding a single metric with key `tackle`. -/
def dbOneMetric : DB :=
  { players := []
    metrics := [⟨1, "tackle", "Tackle", "Defense", "count", true, some 1, true⟩]
    matchRows := []
    events := []
    hotkeys := [] }

/-- The empty database. -/
def dbEmpty : DB :=
  { players := [], metrics := [], matchRows := [], events := [], hotkeys := [] }

/-- State with one player, one metric and one match, for role-gating
witnesses. -/
def dbSmall : DB :=
  { players := [⟨1, "P1", "", true⟩]
    metrics := [⟨1, "tackle", "Tackle", "Defense", "count", true, some 1, true⟩]
    matchRows := [⟨1, "M1", "2026-01-01"⟩]
    events := []
    hotkeys := [] }

/-- State with a player and one event referencing that player. -/
def dbOrphan : DB :=
  { players := [⟨1, "P1", "", true⟩]
    metrics := [⟨1, "tackle", "Tackle", "Defense", "count", true, some 1, true⟩]
    matchRows := [⟨1, "M1", "2026-01-01"⟩]
    events := [⟨1, 1, 1, 1, 1, 0⟩]
    hotkeys := [] }

/-- State with one existing match, for the match-dedup witness. -/
def dbOneMatch : DB :=
  { players := [], metrics := [],
    matchRows := [⟨1, "Tigers", "2026-01-01"⟩],
    events := [], hotkeys := [] }

/-! ## Theorems -/

/-- Keys of the hotkeys table stay duplicate-free across a single Save
Mapping action: the conflicting row is removed before the insert. -/
theorem bindHotkey_keys_nodup (db : DB) (role sym : String) (mid : Nat)
    (h : (db.hotkeys.map Hotkey.key).Nodup) :
    ((bindHotkey db role sym mid).hotkeys.map Hotkey.key).Nodup := by
  unfold bindHotkey
  split
  · simp only [List.map_append, List.map_cons, List.map_nil]
    rw [List.nodup_append]
    refine ⟨List.Nodup.sublist (List.Sublist.map Hotkey.key (List.filter_sublist _)) h,
      List.nodup_singleton _, ?_⟩
    intro x hx hx2
    obtain ⟨hk, hhk, hkey⟩ := List.mem_map.mp hx
    obtain ⟨_, hne⟩ := List.mem_filter.mp hhk
    rw [bne_iff_ne] at hne
    rw [List.mem_singleton.mp hx2] at hkey
    exact hne hkey
  · exact h

/-- A hotkey list whose keys are duplicate-free has at most one row per
key symbol. -/
theorem filter_key_length_le_one (l : List Hotkey) (sym : String)
    (h : (l.map Hotkey.key).Nodup) :
    (l.filter (fun hk => hk.key == sym)).length ≤ 1 := by
  induction l with
  | nil => simp
  | cons a t ih =>
    rw [List.map_cons, List.nodup_cons] at h
    by_cases hs : a.key = sym
    · have ht : t.filter (fun hk => hk.key == sym) = [] := by
        rw [List.filter_eq_nil_iff]
        intro x hx hbeq
        rw [beq_iff_eq] at hbeq
        exact h.1 (by rw [hs, ← hbeq]; exact List.mem_map_of_mem Hotkey.key hx)
      rw [List.filter_cons_of_pos (by simp [hs])]
      simp [ht]
    · rw [List.filter_cons_of_neg (by simp [hs])]
      exact ih h.2

/-- C9: starting from any state whose hotkey symbols are duplicate-free
(as the TEXT PRIMARY KEY guarantees), every sequence of bind operations
keeps the symbols duplicate-free, so each symbol maps to at most one
metric; binding an already-bound symbol replaces rather than adds. -/
theorem hotkeys_at_most_one (db : DB) (ops : List (String × Nat))
    (h : (db.hotkeys.map Hotkey.key).Nodup) :
    ((runBinds db ops).hotkeys.map Hotkey.key).Nodup ∧
    ∀ sym, ((runBinds db ops).hotkeys.filter (fun hk => hk.key == sym)).length ≤ 1 := by
  have hn : ((runBinds db ops).hotkeys.map Hotkey.key).Nodup := by
    induction ops generalizing db h with
    | nil => exact h
    | cons op t ih =>
      exact ih (bindHotkey db "admin" op.1 op.2) (bindHotkey_keys_nodup db "admin" op.1 op.2 h)
  exact ⟨hn, fun sym => filter_key_length_le_one _ sym hn⟩

/-- C9 witness: binding KeyW twice from the empty table leaves a single
row carrying the second metric id — replaced, not duplicated. -/
theorem hotkeys_at_most_one_witness :
    ((runBinds dbEmpty [("KeyW", 1), ("KeyW", 2)]).hotkeys.map Hotkey.key).Nodup ∧
    ((runBinds dbEmpty [("KeyW", 1), ("KeyW", 2)]).hotkeys.filter
        (fun hk => hk.key == "KeyW")).length ≤ 1 ∧
    (runBinds dbEmpty [("KeyW", 1), ("KeyW", 2)]).hotkeys = [⟨"KeyW", 2⟩] :=
  ⟨(hotkeys_at_most_one dbEmpty [("KeyW", 1), ("KeyW", 2)] (by decide)).1,
   (hotkeys_at_most_one dbEmpty [("KeyW", 1), ("KeyW", 2)] (by decide)).2 "KeyW",
   by decide⟩

/-- find? by a duplicate-free key returns exactly the row with that key. -/
theorem find?_key_eq_some {α β : Type} [DecidableEq β] (key : α → β) (l : List α) (x : α)
    (hn : (l.map key).Nodup) (hx : x ∈ l) :
    l.find? (fun y => key y == key x) = some x := by
  induction l with
  | nil => cases hx
  | cons a t ih =>
    rw [List.map_cons, List.nodup_cons] at hn
    rcases List.mem_cons.mp hx with rfl | hxt
    · exact List.find?_cons_of_pos _ (by simp)
    · have hne : (key a == key x) = false := by
        rw [beq_eq_false_iff_ne]
        intro hkey
        refine hn.1 ?_
        rw [hkey]
        exact List.mem_map_of_mem key hxt
      rw [List.find?_cons_of_neg _ (by simp [hne])]
      exact ih hn.2 hxt

/-- Two duplicate-free index lists give the same sum of a function that
vanishes off their intersection. -/
theorem sum_map_eq_of_vanish {α : Type} [DecidableEq α] (l1 l2 : List α) (f : α → ℚ)
    (h1 : l1.Nodup) (h2 : l2.Nodup)
    (v1 : ∀ x ∈ l1, x ∉ l2 → f x = 0) (v2 : ∀ x ∈ l2, x ∉ l1 → f x = 0) :
    (l1.map f).sum = (l2.map f).sum := by
  rw [← List.sum_toFinset f h1, ← List.sum_toFinset f h2]
  have e1 : l1.toFinset.sum f = (l1.toFinset ∪ l2.toFinset).sum f := by
    apply Finset.sum_subset Finset.subset_union_left
    intro x hx hnx
    rcases Finset.mem_union.mp hx with hx1 | hx2
    · exact absurd hx1 hnx
    · exact v2 x (List.mem_toFinset.mp hx2) (fun hc => hnx (List.mem_toFinset.mpr hc))
  have e2 : l2.toFinset.sum f = (l1.toFinset ∪ l2.toFinset).sum f := by
    apply Finset.sum_subset Finset.subset_union_right
    intro x hx hnx
    rcases Finset.mem_union.mp hx with hx1 | hx2
    · exact v1 x (List.mem_toFinset.mp hx1) (fun hc => hnx (List.mem_toFinset.mpr hc))
    · exact absurd hx2 hnx
  rw [e1, e2]

/-- A list of integer-valued rationals sums to an integer. -/
theorem sum_int_of_int (l : List ℚ) (h : ∀ q ∈ l, ∃ n : ℤ, q = (n : ℚ)) :
    ∃ n : ℤ, l.sum = (n : ℚ) := by
  induction l with
  | nil => exact ⟨0, by simp⟩
  | cons a t ih =>
    obtain ⟨m, hm⟩ := h a (List.mem_cons_self a t)
    obtain ⟨n, hn⟩ := ih (fun q hq => h q (List.mem_cons_of_mem a hq))
    refine ⟨m + n, ?_⟩
    rw [List.sum_cons, hm, hn]
    push_cast
    ring

/-- astype(int) truncation is the identity on integral values. -/
theorem truncQ_intCast (n : ℤ) : truncQ ((n : ℤ) : ℚ) = n := by
  unfold truncQ
  split <;> simp

/-- Summing a function guarded by a Bool predicate equals summing over
the filtered list. -/
theorem sum_map_ite_eq_sum_filter {α : Type} (l : List α) (p : α → Bool) (h : α → ℚ) :
    (l.map (fun a => if p a = true then h a else 0)).sum = ((l.filter p).map h).sum := by
  induction l with
  | nil => simp
  | cons a t ih =>
    by_cases hp : p a = true
    · simp [hp, List.filter_cons, ih]
    · simp [hp, List.filter_cons, ih]

/-- The player join resolves a present player's id to its row when ids
are duplicate-free. -/
theorem findPlayer_mem (db : DB) (P : Player)
    (hn : (db.players.map Player.id).Nodup) (hP : P ∈ db.players) :
    findPlayer db P.id = some P :=
  find?_key_eq_some Player.id db.players P hn hP

/-- The metric join resolves a present metric's id to its row when ids
are duplicate-free. -/
theorem findMetric_mem (db : DB) (M : Metric)
    (hn : (db.metrics.map Metric.id).Nodup) (hM : M ∈ db.metrics) :
    findMetric db M.id = some M :=
  find?_key_eq_some Metric.id db.metrics M hn hM

/-- For a present player and metric, the grouped total of the joined
totals query equals the plain sum over the full event log. -/
theorem totalFor_eq_sumValuesAll (db : DB) (P : Player) (M : Metric)
    (hnp : (db.players.map Player.id).Nodup) (hnm : (db.metrics.map Metric.id).Nodup)
    (hP : P ∈ db.players) (hM : M ∈ db.metrics) :
    totalFor db P.id M.id = sumValuesAll db P.id M.id := by
  unfold totalFor sumValuesAll joinedEvents
  rw [List.filter_filter]
  congr 1
  congr 1
  apply List.filter_congr
  intro e he
  cases hb : (e.player_id == P.id && e.metric_id == M.id)
  · simp [hb]
  · rw [Bool.and_eq_true, beq_iff_eq, beq_iff_eq] at hb
    have h1 : findPlayer db e.player_id = some P := by
      rw [hb.1]
      exact findPlayer_mem db P hnp hP
    have h2 : findMetric db e.metric_id = some M := by
      rw [hb.2]
      exact findMetric_mem db M hnm hM
    have h1' : findPlayer db P.id = some P := by
      rw [← hb.1]
      exact h1
    have h2' : findMetric db M.id = some M := by
      rw [← hb.2]
      exact h2
    simp [h1, h2, h1', h2', hb.1, hb.2]

/-- The pivot cell keyed by a catalog player's name and metric's label
equals the id-keyed sum over the full event log. -/
theorem pivotCell_eq_sumValuesAll (db : DB) (P : Player) (M : Metric)
    (hok : CatalogOK db) (hP : P ∈ db.players) (hM : M ∈ db.metrics) :
    pivotCell db P.name M.label = sumValuesAll db P.id M.id := by
  obtain ⟨hnp, hnn, hnm, hnl⟩ := hok
  unfold pivotCell sumValuesAll joinedEvents
  rw [List.filter_filter]
  congr 1
  congr 1
  apply List.filter_congr
  intro e he
  rw [Bool.eq_iff_iff]
  constructor
  · intro hc
    simp only [Bool.and_eq_true, beq_iff_eq] at hc
    obtain ⟨⟨hname, hlabel⟩, _, _⟩ := hc
    obtain ⟨q, hq, hqname⟩ := Option.map_eq_some'.mp hname
    have hqmem : q ∈ db.players := List.mem_of_find?_eq_some hq
    have hqid : q.id = e.player_id := by simpa using List.find?_some hq
    have hqP : q = P := List.inj_on_of_nodup_map hnn hqmem hP hqname
    obtain ⟨r, hr, hrlabel⟩ := Option.map_eq_some'.mp hlabel
    have hrmem : r ∈ db.metrics := List.mem_of_find?_eq_some hr
    have hrid : r.id = e.metric_id := by simpa using List.find?_some hr
    have hrM : r = M := List.inj_on_of_nodup_map hnl hrmem hM hrlabel
    have hep : e.player_id = P.id := by rw [← hqid, hqP]
    have hem : e.metric_id = M.id := by rw [← hrid, hrM]
    simp [hep, hem]
  · intro hb
    simp only [Bool.and_eq_true, beq_iff_eq] at hb
    have h1 : findPlayer db e.player_id = some P := by
      rw [hb.1]
      exact findPlayer_mem db P hnp hP
    have h2 : findMetric db e.metric_id = some M := by
      rw [hb.2]
      exact findMetric_mem db M hnm hM
    simp [h1, h2]

/-- find? by first component in a table with duplicate-free keys. -/
theorem find?_fst_eq_some {γ : Type} (l : List (String × γ)) (s : String) (v : γ)
    (hn : (l.map Prod.fst).Nodup) (hmem : (s, v) ∈ l) :
    l.find? (fun kv => kv.1 == s) = some (s, v) := by
  induction l with
  | nil => cases hmem
  | cons a t ih =>
    rw [List.map_cons, List.nodup_cons] at hn
    rcases List.mem_cons.mp hmem with rfl | hmt
    · exact List.find?_cons_of_pos _ (by simp)
    · have hne : (a.1 == s) = false := by
        rw [beq_eq_false_iff_ne]
        intro hkey
        refine hn.1 ?_
        rw [hkey]
        exact List.mem_map.mpr ⟨(s, v), hmt, rfl⟩
      rw [List.find?_cons_of_neg _ (by simp [hne])]
      exact ih hn.2 hmt

/-- Weight lookup by a present metric's label: the coalesced weight when
the metric is active, else the dict default 0 (inactive metrics are
absent from the weights dict). -/
theorem lookupWeight_of_mem (db : DB) (M : Metric)
    (hnl : (db.metrics.map Metric.label).Nodup) (hM : M ∈ db.metrics) :
    lookupWeight db M.label = if M.active = true then M.weight.getD 0 else 0 := by
  have hkeys : ((weightsDict db).map Prod.fst) =
      (db.metrics.filter (fun m => m.active)).map Metric.label := by
    unfold weightsDict
    rw [List.map_map]
    rfl
  have hknodup : ((weightsDict db).reverse.map Prod.fst).Nodup := by
    rw [List.map_reverse, List.nodup_reverse, hkeys]
    exact hnl.sublist (List.Sublist.map _ (List.filter_sublist _))
  by_cases hact : M.active = true
  · rw [if_pos hact]
    have hmem : (M.label, M.weight.getD 0) ∈ (weightsDict db).reverse := by
      rw [List.mem_reverse]
      exact List.mem_map_of_mem _ (List.mem_filter.mpr ⟨hM, hact⟩)
    unfold lookupWeight
    rw [find?_fst_eq_some _ _ _ hknodup hmem]
  · rw [if_neg hact]
    have hnone : (weightsDict db).reverse.find? (fun kv => kv.1 == M.label) = none := by
      rw [List.find?_eq_none]
      intro kv hkv
      rw [List.mem_reverse] at hkv
      unfold weightsDict at hkv
      obtain ⟨m', hm', rfl⟩ := List.mem_map.mp hkv
      simp only [beq_iff_eq]
      intro heq
      have hmm' : m' = M :=
        List.inj_on_of_nodup_map hnl (List.mem_filter.mp hm').1 hM heq
      exact hact (hmm' ▸ (List.mem_filter.mp hm').2)
    unfold lookupWeight
    rw [hnone]

/-- A label with no joined event has a zero (empty-sum) pivot cell. -/
theorem pivotCell_of_not_mem_cols (db : DB) (pname x : String)
    (hx : x ∉ pivotMetricLabels db) :
    pivotCell db pname x = 0 := by
  unfold pivotCell
  have hnil : (joinedEvents db).filter (fun e =>
      ((findPlayer db e.player_id).map (fun p => p.name) == some pname) &&
      ((findMetric db e.metric_id).map (fun m => m.label) == some x)) = [] := by
    rw [List.filter_eq_nil_iff]
    intro e he hcond
    rw [Bool.and_eq_true] at hcond
    refine hx ?_
    rw [pivotMetricLabels, List.mem_dedup]
    apply List.mem_filterMap.mpr
    refine ⟨e, he, ?_⟩
    have h2 := hcond.2
    rw [beq_iff_eq] at h2
    exact h2
  rw [hnil]
  simp

/-- Every pivot column label is some catalog metric's label. -/
theorem pivotMetricLabels_subset (db : DB) :
    ∀ x ∈ pivotMetricLabels db, x ∈ db.metrics.map Metric.label := by
  intro x hx
  rw [pivotMetricLabels, List.mem_dedup] at hx
  obtain ⟨e, he, hfx⟩ := List.mem_filterMap.mp hx
  obtain ⟨m, hm, hmx⟩ := Option.map_eq_some'.mp hfx
  rw [← hmx]
  exact List.mem_map_of_mem Metric.label (List.mem_of_find?_eq_some hm)

/-- With integral event values, the truncated pivot cell cast back to ℚ
recovers the exact id-keyed sum. -/
theorem pivotCellInt_cast (db : DB) (P : Player) (M : Metric)
    (hok : CatalogOK db) (hP : P ∈ db.players) (hM : M ∈ db.metrics)
    (hval : ∀ e ∈ db.events, ∃ n : ℤ, e.value = (n : ℚ)) :
    ((pivotCellInt db P.name M.label : ℤ) : ℚ) = sumValuesAll db P.id M.id := by
  obtain ⟨n, hn⟩ : ∃ n : ℤ, sumValuesAll db P.id M.id = (n : ℚ) := by
    unfold sumValuesAll
    apply sum_int_of_int
    intro q hq
    obtain ⟨e, he, rfl⟩ := List.mem_map.mp hq
    exact hval e (List.mem_filter.mp he).1
  unfold pivotCellInt
  rw [pivotCell_eq_sumValuesAll db P M hok hP hM, hn, truncQ_intCast]

/-- C1: for a player and metric of the catalog, a (player, metric) pair
with at least one event appears in the totals query result with total
equal to the sum of value over all events of that pair, and a pair with
zero events does not appear among the grouped rows. -/
theorem reportTotals_correct (db : DB) (P : Player) (M : Metric)
    (hok : CatalogOK db) (hP : P ∈ db.players) (hM : M ∈ db.metrics) :
    ((∃ e ∈ db.events, e.player_id = P.id ∧ e.metric_id = M.id) →
      (P.name, M.label, sumValuesAll db P.id M.id) ∈ reportTotals db) ∧
    ((¬ ∃ e ∈ db.events, e.player_id = P.id ∧ e.metric_id = M.id) →
      (P.id, M.id) ∉ totalsPairs db) := by
  obtain ⟨hnp, _, hnm, _⟩ := hok
  constructor
  · rintro ⟨e, he, hep, hem⟩
    have hj : e ∈ joinedEvents db := by
      rw [joinedEvents, List.mem_filter]
      refine ⟨he, ?_⟩
      rw [hep, hem, findPlayer_mem db P hnp hP, findMetric_mem db M hnm hM]
      rfl
    have hpair : (P.id, M.id) ∈ totalsPairs db := by
      rw [totalsPairs, List.mem_dedup]
      exact List.mem_map.mpr ⟨e, hj, by rw [hep, hem]⟩
    rw [reportTotals, List.mem_filterMap]
    refine ⟨(P.id, M.id), hpair, ?_⟩
    simp only [findPlayer_mem db P hnp hP, findMetric_mem db M hnm hM]
    rw [totalFor_eq_sumValuesAll db P M hnp hnm hP hM]
  · intro hno hmem
    rw [totalsPairs, List.mem_dedup] at hmem
    obtain ⟨e, hj, hpair⟩ := List.mem_map.mp hmem
    rw [joinedEvents, List.mem_filter] at hj
    rw [Prod.mk.injEq] at hpair
    exact hno ⟨e, hj.1, hpair.1, hpair.2⟩

/-- C1 witness: in the end-to-end scenario P1's tackle total 3 appears in
the totals result, and the zero-event pair (P1, conversions) does not. -/
theorem reportTotals_correct_witness :
    ("P1", "Tackle", sumValuesAll dbScenario 1 1) ∈ reportTotals dbScenario ∧
    sumValuesAll dbScenario 1 1 = 3 ∧
    (1, 3) ∉ totalsPairs dbScenario :=
  ⟨(reportTotals_correct dbScenario ⟨1, "P1", "", true⟩
      ⟨1, "tackle", "Tackle", "Defense", "count", true, some 1, true⟩
      (by with_unfolding_all decide) (by with_unfolding_all decide)
      (by with_unfolding_all decide)).1
      ⟨⟨1, 1, 1, 1, 1, 0⟩, by with_unfolding_all decide, rfl, rfl⟩,
   by with_unfolding_all decide,
   (reportTotals_correct dbScenario ⟨1, "P1", "", true⟩
      ⟨3, "conversions", "Conversions", "Scoring", "count", true, some 2, true⟩
      (by with_unfolding_all decide) (by with_unfolding_all decide)
      (by with_unfolding_all decide)).2 (by with_unfolding_all decide)⟩

/-- When every event's player and metric exist, the double join of the
reports queries keeps every event. -/
theorem joinedEvents_eq_of_valid (db : DB)
    (hvalid : ∀ e ∈ db.events, (findPlayer db e.player_id).isSome = true ∧
      (findMetric db e.metric_id).isSome = true) :
    joinedEvents db = db.events := by
  unfold joinedEvents
  rw [List.filter_eq_self]
  intro e he
  rw [Bool.and_eq_true]
  exact hvalid e he

/-- When every event's player exists, the single player join keeps every
event. -/
theorem playerJoinedEvents_eq_of_valid (db : DB)
    (hvalid : ∀ e ∈ db.events, (findPlayer db e.player_id).isSome = true ∧
      (findMetric db e.metric_id).isSome = true) :
    playerJoinedEvents db = db.events := by
  unfold playerJoinedEvents
  rw [List.filter_eq_self]
  intro e he
  exact (hvalid e he).1

/-- Under valid references the minutes query's joined events are exactly
the events of the `minutes` metric. -/
theorem minutesEvents_eq_of_valid (db : DB)
    (hvalid : ∀ e ∈ db.events, (findPlayer db e.player_id).isSome = true ∧
      (findMetric db e.metric_id).isSome = true) :
    minutesEvents db = db.events.filter
      (fun e => ((findMetric db e.metric_id).map (fun m => m.name)) == some "minutes") := by
  unfold minutesEvents
  rw [joinedEvents_eq_of_valid db hvalid]

/-- Under valid references, the minutes query result is empty exactly
when no `minutes` values are logged. -/
theorem minutesTable_empty_iff (db : DB)
    (hvalid : ∀ e ∈ db.events, (findPlayer db e.player_id).isSome = true ∧
      (findMetric db e.metric_id).isSome = true) :
    minutesTable db = [] ↔ specMinutesPresent db = false := by
  constructor
  · intro h
    unfold specMinutesPresent
    rw [List.any_eq_false]
    intro e he hcond
    have hme : e ∈ minutesEvents db := by
      rw [minutesEvents_eq_of_valid db hvalid, List.mem_filter]
      exact ⟨he, hcond⟩
    have hpid : e.player_id ∈ ((minutesEvents db).map (fun e => e.player_id)).dedup := by
      rw [List.mem_dedup]
      exact List.mem_map_of_mem _ hme
    unfold minutesTable at h
    rw [List.filterMap_eq_nil_iff] at h
    have h2 := h e.player_id hpid
    obtain ⟨p, hp⟩ := Option.isSome_iff_exists.mp (hvalid e he).1
    rw [hp] at h2
    simp at h2
  · intro h
    have hnil : minutesEvents db = [] := by
      rw [minutesEvents_eq_of_valid db hvalid, List.filter_eq_nil_iff]
      unfold specMinutesPresent at h
      rw [List.any_eq_false] at h
      exact h
    unfold minutesTable
    rw [hnil]
    rfl

/-- find? by player name over a (name, value) table built from a pid
list, when player ids and names are duplicate-free and all pids resolve:
the present player's entry, or none. -/
theorem find_player_table (db : DB) (pids : List Nat) (f : Nat → ℚ) (P : Player)
    (hnp : (db.players.map Player.id).Nodup) (hnn : (db.players.map Player.name).Nodup)
    (hP : P ∈ db.players)
    (hfind : ∀ pid ∈ pids, (findPlayer db pid).isSome = true) :
    (pids.filterMap (fun pid => (findPlayer db pid).map (fun p => (p.name, f pid)))).find?
      (fun kv => kv.1 == P.name) =
    if P.id ∈ pids then some (P.name, f P.id) else none := by
  induction pids with
  | nil => simp
  | cons pid rest ih =>
    have hfr : ∀ q ∈ rest, (findPlayer db q).isSome = true :=
      fun q hq => hfind q (List.mem_cons_of_mem pid hq)
    by_cases hpid : pid = P.id
    · subst hpid
      rw [List.filterMap_cons, findPlayer_mem db P hnp hP]
      simp only [Option.map_some']
      rw [List.find?_cons_of_pos _ (by simp)]
      rw [if_pos (List.mem_cons_self _ _)]
    · obtain ⟨q, hq⟩ := Option.isSome_iff_exists.mp (hfind pid (List.mem_cons_self pid rest))
      have hqmem : q ∈ db.players := List.mem_of_find?_eq_some hq
      have hqid : q.id = pid := by simpa using List.find?_some hq
      have hqname : (q.name == P.name) = false := by
        rw [beq_eq_false_iff_ne]
        intro heq
        have hqP : q = P := List.inj_on_of_nodup_map hnn hqmem hP heq
        exact hpid (by rw [← hqid, hqP])
      rw [List.filterMap_cons, hq]
      simp only [Option.map_some']
      rw [List.find?_cons_of_neg _ (by simp [hqname])]
      rw [ih hfr]
      have hiff : (P.id ∈ pid :: rest) ↔ (P.id ∈ rest) := by
        rw [List.mem_cons]
        constructor
        · rintro (h | h)
          · exact absurd h.symm hpid
          · exact h
        · exact Or.inr
      rw [if_congr hiff.symm rfl rfl]

/-- Every pid in the fallback minutes grouping resolves to a player. -/
theorem pje_pids_findable (db : DB) :
    ∀ pid ∈ ((playerJoinedEvents db).map (fun e => e.player_id)).dedup,
      (findPlayer db pid).isSome = true := by
  intro pid hpid
  rw [List.mem_dedup] at hpid
  obtain ⟨e, he, rfl⟩ := List.mem_map.mp hpid
  exact (List.mem_filter.mp he).2

/-- Under valid references every pid in the minutes grouping resolves. -/
theorem minutes_pids_findable (db : DB)
    (hvalid : ∀ e ∈ db.events, (findPlayer db e.player_id).isSome = true ∧
      (findMetric db e.metric_id).isSome = true) :
    ∀ pid ∈ ((minutesEvents db).map (fun e => e.player_id)).dedup,
      (findPlayer db pid).isSome = true := by
  intro pid hpid
  rw [List.mem_dedup] at hpid
  obtain ⟨e, he, rfl⟩ := List.mem_map.mp hpid
  rw [minutesEvents_eq_of_valid db hvalid, List.mem_filter] at he
  exact (hvalid e he.1).1

/-- The minutes query's per-player sum equals the claim-side sum of the
player's logged `minutes` values. -/
theorem minutes_sum_eq (db : DB) (P : Player)
    (hvalid : ∀ e ∈ db.events, (findPlayer db e.player_id).isSome = true ∧
      (findMetric db e.metric_id).isSome = true) :
    (((minutesEvents db).filter (fun e => e.player_id == P.id)).map (fun e => e.value)).sum =
    ((db.events.filter (fun e => e.player_id == P.id &&
        ((findMetric db e.metric_id).map (fun m => m.name)) == some "minutes")).map
      (fun e => e.value)).sum := by
  rw [minutesEvents_eq_of_valid db hvalid, List.filter_filter]

/-- The per-80 cell with a resolved nonzero minutes denominator. -/
theorem per80Rate_of_lookup_some (db : DB) (pname mlabel : String) (m : ℚ)
    (h : minsLookup db pname = some m) :
    per80Rate db pname mlabel = ((pivotCellInt db pname mlabel : ℤ) : ℚ) / m * 80 := by
  unfold per80Rate
  rw [h]

/-- The per-80 cell with an NA minutes denominator is 0. -/
theorem per80Rate_of_lookup_none (db : DB) (pname mlabel : String)
    (h : minsLookup db pname = none) :
    per80Rate db pname mlabel = 0 := by
  unfold per80Rate
  rw [h]

/-- A nonzero raw minutes entry survives replace(0, NA). -/
theorem minsLookup_of_raw_some_ne (db : DB) (pname : String) (m : ℚ)
    (h : rawMins db pname = some m) (hm : m ≠ 0) :
    minsLookup db pname = some m := by
  unfold minsLookup
  rw [h]
  show (if m = 0 then none else some m) = some m
  rw [if_neg hm]

/-- A zero raw minutes entry becomes NA. -/
theorem minsLookup_of_raw_some_zero (db : DB) (pname : String)
    (h : rawMins db pname = some 0) :
    minsLookup db pname = none := by
  unfold minsLookup
  rw [h]
  simp

/-- An absent raw minutes entry stays NA. -/
theorem minsLookup_of_raw_none (db : DB) (pname : String)
    (h : rawMins db pname = none) :
    minsLookup db pname = none := by
  unfold minsLookup
  rw [h]

/-- C2: for every catalog player, the computed leaderboard score equals
the sum over all active metrics of the player's total for the metric
times the metric's coalesced weight (missing weight as 0), and the
leaderboard lists its (player, score) rows in descending score order. -/
theorem leaderboard_score_correct (db : DB) (P : Player)
    (hok : CatalogOK db) (hP : P ∈ db.players)
    (hval : ∀ e ∈ db.events, ∃ n : ℤ, e.value = (n : ℚ)) :
    scoreFor db P.name = specScore db P ∧
    (leaderboard db).Sorted scoreGE ∧
    (leaderboard db).Perm ((pivotPlayerNames db).map (fun n => (n, scoreFor db n))) := by
  refine ⟨?_, List.sorted_insertionSort scoreGE _, List.perm_insertionSort scoreGE _⟩
  obtain ⟨hnp, hnn, hnm, hnl⟩ := hok
  have step1 : scoreFor db P.name =
      ((db.metrics.map Metric.label).map
        (fun lbl => (pivotCellInt db P.name lbl : ℚ) * lookupWeight db lbl)).sum := by
    unfold scoreFor
    apply sum_map_eq_of_vanish _ _ _ (List.nodup_dedup _) hnl
    · intro x hx hnx
      exact absurd (pivotMetricLabels_subset db x hx) hnx
    · intro x hx hnx
      have hz : pivotCell db P.name x = 0 := pivotCell_of_not_mem_cols db P.name x hnx
      unfold pivotCellInt
      rw [hz]
      simp [truncQ]
  have step2 : ∀ m ∈ db.metrics,
      (pivotCellInt db P.name m.label : ℚ) * lookupWeight db m.label =
      (if m.active = true then sumValuesAll db P.id m.id * m.weight.getD 0 else 0) := by
    intro m hm
    rw [pivotCellInt_cast db P m ⟨hnp, hnn, hnm, hnl⟩ hP hm hval,
      lookupWeight_of_mem db m hnl hm]
    by_cases hact : m.active = true
    · rw [if_pos hact, if_pos hact]
    · rw [if_neg hact, if_neg hact, mul_zero]
  calc scoreFor db P.name
      = ((db.metrics.map Metric.label).map
          (fun lbl => (pivotCellInt db P.name lbl : ℚ) * lookupWeight db lbl)).sum := step1
    _ = (db.metrics.map
          (fun m => (pivotCellInt db P.name m.label : ℚ) * lookupWeight db m.label)).sum := by
        rw [List.map_map]
        rfl
    _ = (db.metrics.map
          (fun m => if m.active = true then sumValuesAll db P.id m.id * m.weight.getD 0
            else 0)).sum := by
        congr 1
        exact List.map_congr_left step2
    _ = specScore db P :=
        sum_map_ite_eq_sum_filter db.metrics (fun m => m.active)
          (fun m => sumValuesAll db P.id m.id * m.weight.getD 0)

/-- C2 witness: the end-to-end scenario — metrics tackle (weight 1) and
try (weight 5), with 3 tackle events and 1 try event for P1 — yields the
spec score, which evaluates to 8. -/
theorem leaderboard_score_correct_witness :
    scoreFor dbScenario "P1" = specScore dbScenario ⟨1, "P1", "", true⟩ ∧
    specScore dbScenario ⟨1, "P1", "", true⟩ = 8 := by
  have hval : ∀ e ∈ dbScenario.events, ∃ n : ℤ, e.value = (n : ℚ) := by
    intro e he
    have hv : e.value = 1 := by
      simp only [dbScenario, List.mem_cons, List.not_mem_nil, or_false] at he
      rcases he with rfl | rfl | rfl | rfl <;> rfl
    exact ⟨1, by rw [hv]; norm_num⟩
  exact ⟨(leaderboard_score_correct dbScenario ⟨1, "P1", "", true⟩
      (by with_unfolding_all decide) (by with_unfolding_all decide) hval).1,
    by with_unfolding_all decide⟩

/-- C3: for a catalog player with at least one event and an active
metric flagged per-80 with at least one event, under valid references
and integral event values the per-80 view has a row for the player and a
column for the metric, and the reported rate equals
total / minutesPlayed * 80, where minutesPlayed is the sum of the
player's logged `minutes` values when any `minutes` values are present
and otherwise the number of distinct matches the player has events in
times 80 (a zero minutesPlayed gives rate 0 on both sides, by the
division convention x / 0 = 0 mirroring the code's NA policy). -/
theorem per80_rate_correct (db : DB) (P : Player) (M : Metric)
    (hok : CatalogOK db) (hP : P ∈ db.players) (hM : M ∈ db.metrics)
    (hper : M.per80 = true) (hact : M.active = true)
    (hvalid : ∀ e ∈ db.events, (findPlayer db e.player_id).isSome = true ∧
      (findMetric db e.metric_id).isSome = true)
    (hval : ∀ e ∈ db.events, ∃ n : ℤ, e.value = (n : ℚ))
    (hPev : ∃ e ∈ db.events, e.player_id = P.id)
    (hMev : ∃ e ∈ db.events, e.metric_id = M.id) :
    P.name ∈ pivotPlayerNames db ∧
    M.label ∈ per80ViewCols db ∧
    per80Rate db P.name M.label =
      sumValuesAll db P.id M.id / specMinutesPlayed db P * 80 := by
  obtain ⟨hnp, hnn, hnm, hnl⟩ := hok
  refine ⟨?_, ?_, ?_⟩
  · obtain ⟨e, he, hep⟩ := hPev
    rw [pivotPlayerNames, List.mem_dedup]
    apply List.mem_filterMap.mpr
    refine ⟨e, ?_, ?_⟩
    · rw [joinedEvents_eq_of_valid db hvalid]
      exact he
    · rw [hep, findPlayer_mem db P hnp hP]
      rfl
  · rw [per80ViewCols, List.mem_filter]
    constructor
    · obtain ⟨e, he, hem⟩ := hMev
      rw [pivotMetricLabels, List.mem_dedup]
      apply List.mem_filterMap.mpr
      refine ⟨e, ?_, ?_⟩
      · rw [joinedEvents_eq_of_valid db hvalid]
        exact he
      · rw [hem, findMetric_mem db M hnm hM]
        rfl
    · have hmm : M.label ∈ per80Labels db := by
        unfold per80Labels
        exact List.mem_map_of_mem Metric.label
          (List.mem_filter.mpr ⟨hM, by rw [hper, hact]; rfl⟩)
      exact List.elem_iff.mpr hmm
  · by_cases hmt : minutesTable db = []
    · -- fallback branch: minutes approximated from distinct matches
      have hpres : specMinutesPresent db = false := (minutesTable_empty_iff db hvalid).mp hmt
      have hPmem : P.id ∈ ((playerJoinedEvents db).map (fun e => e.player_id)).dedup := by
        rw [List.mem_dedup]
        obtain ⟨e, he, hep⟩ := hPev
        apply List.mem_map.mpr
        refine ⟨e, ?_, hep⟩
        rw [playerJoinedEvents_eq_of_valid db hvalid]
        exact he
      have happrox := find_player_table db
        (((playerJoinedEvents db).map (fun e => e.player_id)).dedup)
        (fun pid => ((((playerJoinedEvents db).filter (fun e => e.player_id == pid)).map
          (fun e => e.match_id)).dedup.length : ℚ) * 80) P hnp hnn hP (pje_pids_findable db)
      rw [if_pos hPmem] at happrox
      have hraw : rawMins db P.name = some (((((playerJoinedEvents db).filter
          (fun e => e.player_id == P.id)).map (fun e => e.match_id)).dedup.length : ℚ) * 80) := by
        unfold rawMins minutesFor
        rw [if_pos hmt]
        unfold approxMinutesTable
        rw [happrox]
        rfl
      have hkpos : ((((playerJoinedEvents db).filter (fun e => e.player_id == P.id)).map
          (fun e => e.match_id)).dedup.length) ≠ 0 := by
        obtain ⟨e, he, hep⟩ := hPev
        have hef : e ∈ (playerJoinedEvents db).filter (fun e => e.player_id == P.id) := by
          rw [List.mem_filter]
          refine ⟨?_, by simp [hep]⟩
          rw [playerJoinedEvents_eq_of_valid db hvalid]
          exact he
        intro h0
        rw [List.length_eq_zero] at h0
        have hmm : e.match_id ∈ (((playerJoinedEvents db).filter
            (fun e => e.player_id == P.id)).map (fun e => e.match_id)).dedup := by
          rw [List.mem_dedup]
          exact List.mem_map_of_mem _ hef
        rw [h0] at hmm
        cases hmm
      have hm0 : (((((playerJoinedEvents db).filter (fun e => e.player_id == P.id)).map
          (fun e => e.match_id)).dedup.length : ℚ) * 80) ≠ 0 := by
        apply mul_ne_zero
        · exact Nat.cast_ne_zero.mpr hkpos
        · norm_num
      have hspec : specMinutesPlayed db P = ((((playerJoinedEvents db).filter
          (fun e => e.player_id == P.id)).map (fun e => e.match_id)).dedup.length : ℚ) * 80 := by
        unfold specMinutesPlayed
        simp only [hpres, Bool.false_eq_true, if_false]
        rw [playerJoinedEvents_eq_of_valid db hvalid]
      rw [per80Rate_of_lookup_some db P.name M.label _
        (minsLookup_of_raw_some_ne db P.name _ hraw hm0)]
      rw [pivotCellInt_cast db P M ⟨hnp, hnn, hnm, hnl⟩ hP hM hval, hspec]
    · -- minutes-metric branch
      have hpres : specMinutesPresent db = true := by
        cases h : specMinutesPresent db
        · exact absurd ((minutesTable_empty_iff db hvalid).mpr h) hmt
        · rfl
      have hfind := find_player_table db
        (((minutesEvents db).map (fun e => e.player_id)).dedup)
        (fun pid => (((minutesEvents db).filter (fun e => e.player_id == pid)).map
          (fun e => e.value)).sum) P hnp hnn hP (minutes_pids_findable db hvalid)
      by_cases hPmin : P.id ∈ ((minutesEvents db).map (fun e => e.player_id)).dedup
      · rw [if_pos hPmin] at hfind
        have hraw : rawMins db P.name = some ((((minutesEvents db).filter
            (fun e => e.player_id == P.id)).map (fun e => e.value)).sum) := by
          unfold rawMins minutesFor
          rw [if_neg hmt]
          unfold minutesTable
          rw [hfind]
          rfl
        have hspec : specMinutesPlayed db P = (((minutesEvents db).filter
            (fun e => e.player_id == P.id)).map (fun e => e.value)).sum := by
          unfold specMinutesPlayed
          simp only [hpres, if_true]
          exact (minutes_sum_eq db P hvalid).symm
        by_cases hz : ((((minutesEvents db).filter (fun e => e.player_id == P.id)).map
            (fun e => e.value)).sum) = 0
        · rw [per80Rate_of_lookup_none db P.name M.label
            (minsLookup_of_raw_some_zero db P.name (by rw [hraw, hz]))]
          rw [hspec, hz]
          simp
        · rw [per80Rate_of_lookup_some db P.name M.label _
            (minsLookup_of_raw_some_ne db P.name _ hraw hz)]
          rw [pivotCellInt_cast db P M ⟨hnp, hnn, hnm, hnl⟩ hP hM hval, hspec]
      · rw [if_neg hPmin] at hfind
        have hraw : rawMins db P.name = none := by
          unfold rawMins minutesFor
          rw [if_neg hmt]
          unfold minutesTable
          rw [hfind]
          rfl
        have hspec : specMinutesPlayed db P = 0 := by
          unfold specMinutesPlayed
          simp only [hpres, if_true]
          have hnone : db.events.filter (fun e => e.player_id == P.id &&
              ((findMetric db e.metric_id).map (fun m => m.name)) == some "minutes") = [] := by
            rw [List.filter_eq_nil_iff]
            intro e he hcond
            rw [Bool.and_eq_true] at hcond
            refine hPmin ?_
            rw [List.mem_dedup]
            apply List.mem_map.mpr
            refine ⟨e, ?_, ?_⟩
            · rw [minutesEvents_eq_of_valid db hvalid, List.mem_filter]
              exact ⟨he, hcond.2⟩
            · have h1 := hcond.1
              rw [beq_iff_eq] at h1
              exact h1
          rw [hnone]
          rfl
        rw [per80Rate_of_lookup_none db P.name M.label
          (minsLookup_of_raw_none db P.name hraw)]
        rw [hspec]
        simp

/-- C3 witness: the per-80 scenario — no `minutes` metric, P1 with 8
carry events across exactly 2 distinct matches — derives 160 minutes and
rate 8 / 160 * 80 = 4. -/
theorem per80_rate_correct_witness :
    per80Rate dbPer80 "P1" "Carries Made" =
      sumValuesAll dbPer80 1 1 / specMinutesPlayed dbPer80 ⟨1, "P1", "", true⟩ * 80 ∧
    specMinutesPlayed dbPer80 ⟨1, "P1", "", true⟩ = 160 ∧
    sumValuesAll dbPer80 1 1 = 8 ∧
    per80Rate dbPer80 "P1" "Carries Made" = 4 := by
  have hval : ∀ e ∈ dbPer80.events, ∃ n : ℤ, e.value = (n : ℚ) := by
    intro e he
    have hv : e.value = 1 := by
      simp only [dbPer80, List.mem_cons, List.not_mem_nil, or_false] at he
      rcases he with rfl | rfl | rfl | rfl | rfl | rfl | rfl | rfl <;> rfl
    exact ⟨1, by rw [hv]; norm_num⟩
  refine ⟨(per80_rate_correct dbPer80 ⟨1, "P1", "", true⟩
      ⟨1, "carries_made", "Carries Made", "Attack", "count", true, some 1, true⟩
      (by with_unfolding_all decide) (by with_unfolding_all decide)
      (by with_unfolding_all decide) rfl rfl
      (by with_unfolding_all decide) hval
      ⟨⟨1, 1, 1, 1, 1, 0⟩, by with_unfolding_all decide, rfl⟩
      ⟨⟨1, 1, 1, 1, 1, 0⟩, by with_unfolding_all decide, rfl⟩).2.2,
    by with_unfolding_all decide, by with_unfolding_all decide,
    by with_unfolding_all decide⟩

/-- C7 counterexample: the viewer role is neither admin nor editor, yet
the live logger's event insert writes to the store — `page_logger`
performs no role check, contradicting the claim that every mutation
refuses to write for such callers. -/
theorem logger_role_unchecked_counterexample :
    ("viewer" == "admin") = false ∧ ("viewer" == "editor") = false ∧
    (loggerLogEvent dbSmall "viewer" 1 1 1 1 0).events.length =
      dbSmall.events.length + 1 := by
  decide

/-- C7 amended: the player, metric and hotkey mutations are role-gated
(players require admin or editor; metrics and hotkeys require admin) and
leave the store unchanged for any other role, but the live logger's
event insert performs no role check and writes for every role. -/
theorem mutations_gated_except_logger (db : DB) (role : String)
    (h1 : role ≠ "admin") (h2 : role ≠ "editor") :
    (∀ name pos nid, addPlayer db role name pos nid = db) ∧
    (∀ pid, deletePlayer db role pid = db) ∧
    (∀ key label grp p80 w nid,
      (addMetric db role key label grp p80 w nid).1 = db ∧
      (addMetric db role key label grp p80 w nid).2 = none) ∧
    (∀ sym mid, bindHotkey db role sym mid = db) ∧
    (∀ mid pid metid nid now,
      (loggerLogEvent db role mid pid metid nid now).events.length =
        db.events.length + 1) := by
  have hba : (role == "admin") = false := beq_eq_false_iff_ne.mpr h1
  have hbe : (role == "editor") = false := beq_eq_false_iff_ne.mpr h2
  have hce : canEditPlayers role = false := by simp [canEditPlayers, hba, hbe]
  refine ⟨?_, ?_, ?_, ?_, ?_⟩
  · intro name pos nid
    simp [addPlayer, hce]
  · intro pid
    simp [deletePlayer, hce]
  · intro key label grp p80 w nid
    have hbne : (role != "admin") = true := by simp [bne, hba]
    constructor <;> simp [addMetric, hbne]
  · intro sym mid
    simp [bindHotkey, hba]
  · intro mid pid metid nid now
    simp [loggerLogEvent, logEvent]

/-- C7 amended witness: as viewer, player/metric/hotkey mutations leave
`dbSmall` unchanged while the logger's insert still appends an event. -/
theorem mutations_gated_except_logger_witness :
    addPlayer dbSmall "viewer" "X" "" 9 = dbSmall ∧
    deletePlayer dbSmall "viewer" 1 = dbSmall ∧
    (addMetric dbSmall "viewer" "new_metric" "New" "Other" true 1 9).1 = dbSmall ∧
    bindHotkey dbSmall "viewer" "KeyW" 1 = dbSmall ∧
    (loggerLogEvent dbSmall "viewer" 1 1 1 9 0).events.length =
      dbSmall.events.length + 1 := by
  have h := mutations_gated_except_logger dbSmall "viewer" (by decide) (by decide)
  exact ⟨h.1 "X" "" 9, h.2.1 1, (h.2.2.1 "new_metric" "New" "Other" true 1 9).1,
    h.2.2.2.1 "KeyW" 1, h.2.2.2.2 1 1 1 9 0⟩

/-- C4: for every player whose derived minutes value is zero (a zero
entry in the minutes series, or no entry at all), the per-80 computation
yields rate 0 for every metric label.  The computation is a total
function into ℚ by construction, so no error and no NaN can arise. -/
theorem per80Rate_zero_minutes (db : DB) (pname : String)
    (h : rawMins db pname = some 0 ∨ rawMins db pname = none) :
    ∀ mlabel, per80Rate db pname mlabel = 0 := by
  intro mlabel
  unfold per80Rate minsLookup
  rcases h with h | h <;> rw [h] <;> simp

/-- C4 witness: in `dbZeroMinutes`, P1's logged minutes sum to 0, yet the
per-80 rate of the Carries Made metric (total 2) is 0, not an error. -/
theorem per80Rate_zero_minutes_witness :
    rawMins dbZeroMinutes "P1" = some 0 ∧
    per80Rate dbZeroMinutes "P1" "Carries Made" = 0 :=
  ⟨by with_unfolding_all decide,
   per80Rate_zero_minutes dbZeroMinutes "P1" (Or.inl (by with_unfolding_all decide))
     "Carries Made"⟩

/-- C5: with a non-blank key and label, adding a metric whose key
(exact, case-sensitive match after stripping) already exists fails with
the duplicate-key error and leaves the metrics table — indeed the whole
database — completely unchanged. -/
theorem addMetric_duplicate_key (db : DB) (key label grp : String)
    (per80 : Bool) (weight : ℚ) (nextId : Nat)
    (hk : strip key ≠ "") (hl : strip label ≠ "")
    (hdup : ∃ m ∈ db.metrics, m.name = strip key) :
    (addMetric db "admin" key label grp per80 weight nextId).1 = db ∧
    (addMetric db "admin" key label grp per80 weight nextId).2 = some .duplicateKey := by
  obtain ⟨m, hm, hname⟩ := hdup
  have hany : db.metrics.any (fun m => m.name == strip key) = true := by
    rw [List.any_eq_true]
    exact ⟨m, hm, by simp [hname]⟩
  unfold addMetric
  simp [hk, hl, hany]

/-- C5 witness: re-adding key `tackle` to `dbOneMetric` fails with the
duplicate-key error and leaves the table unchanged. -/
theorem addMetric_duplicate_key_witness :
    (addMetric dbOneMetric "admin" "tackle" "Tackle again" "Defense" true 1 2).1 = dbOneMetric ∧
    (addMetric dbOneMetric "admin" "tackle" "Tackle again" "Defense" true 1 2).2 =
      some .duplicateKey :=
  addMetric_duplicate_key dbOneMetric "tackle" "Tackle again" "Defense" true 1 2
    (by decide) (by decide) ⟨⟨1, "tackle", "Tackle", "Defense", "count", true, some 1, true⟩,
      by decide, by decide⟩

/-- C6 counterexample: on the empty database none of the three referenced
rows exists, yet the event insert succeeds and appends a row — the
schema declares no foreign keys, so no ReferenceError is possible. -/
theorem logEvent_no_fk_counterexample :
    (findPlayer dbEmpty 4).isNone = true ∧
    (findMetric dbEmpty 5).isNone = true ∧
    (dbEmpty.matchRows.find? (fun m => m.id == 3)).isNone = true ∧
    (logEvent dbEmpty 3 4 5 1 0).events.length = dbEmpty.events.length + 1 := by
  decide

/-- C6 amended: logEvent always succeeds, appending exactly one event row
with value 1 and the current timestamp, whether or not the referenced
match, player and metric exist; the other tables are untouched. -/
theorem logEvent_always_appends (db : DB) (mid pid metid nextId now : Nat) :
    (logEvent db mid pid metid nextId now).events =
      db.events ++ [⟨nextId, mid, pid, metid, 1, now⟩] ∧
    (logEvent db mid pid metid nextId now).players = db.players ∧
    (logEvent db mid pid metid nextId now).metrics = db.metrics ∧
    (logEvent db mid pid metid nextId now).matchRows = db.matchRows ∧
    (logEvent db mid pid metid nextId now).hotkeys = db.hotkeys :=
  ⟨rfl, rfl, rfl, rfl, rfl⟩

/-- C8 counterexample: deleting player 1 from `dbOrphan` removes the
player row but leaves the event that references player 1 in place — the
delete does not cascade and an orphaned row remains. -/
theorem deletePlayer_no_cascade_counterexample :
    (deletePlayer dbOrphan "admin" 1).players = [] ∧
    (deletePlayer dbOrphan "admin" 1).events.any (fun e => e.player_id == 1) = true := by
  decide

/-- C8 amended: hard-deleting a player (admin/editor) removes only the
matching players row; events — including those referencing the deleted
player — and all other tables are left unchanged, so dependent rows are
orphaned rather than removed. -/
theorem deletePlayer_removes_only_player (db : DB) (role : String) (pid : Nat)
    (h : canEditPlayers role = true) :
    (deletePlayer db role pid).players = db.players.filter (fun p => p.id != pid) ∧
    (deletePlayer db role pid).events = db.events ∧
    (deletePlayer db role pid).metrics = db.metrics ∧
    (deletePlayer db role pid).matchRows = db.matchRows ∧
    (deletePlayer db role pid).hotkeys = db.hotkeys := by
  simp [deletePlayer, h]

/-- C8 amended witness: deleting player 1 as admin from `dbOrphan`
filters the players table and keeps the events table intact. -/
theorem deletePlayer_removes_only_player_witness :
    (deletePlayer dbOrphan "admin" 1).players =
      dbOrphan.players.filter (fun p => p.id != 1) ∧
    (deletePlayer dbOrphan "admin" 1).events = dbOrphan.events ∧
    (deletePlayer dbOrphan "admin" 1).metrics = dbOrphan.metrics ∧
    (deletePlayer dbOrphan "admin" 1).matchRows = dbOrphan.matchRows ∧
    (deletePlayer dbOrphan "admin" 1).hotkeys = dbOrphan.hotkeys :=
  deletePlayer_removes_only_player dbOrphan "admin" 1 (by decide)

/-- C10: with a non-blank opponent, Create/Use Match reuses the id of the
first existing match with the same opponent and date without inserting,
and otherwise inserts exactly one new match row. -/
theorem createOrUseMatch_dedup (db : DB) (opponent date : String) (nextId : Nat)
    (hop : strip opponent ≠ "") :
    (∀ m, db.matchRows.find? (fun m => m.opponent == strip opponent && m.date == date) = some m →
      createOrUseMatch db opponent date nextId = some (m.id, db)) ∧
    ((¬ ∃ m ∈ db.matchRows, m.opponent = strip opponent ∧ m.date = date) →
      ∃ db', createOrUseMatch db opponent date nextId = some (nextId, db') ∧
        db'.matchRows = db.matchRows ++ [⟨nextId, strip opponent, date⟩] ∧
        db'.players = db.players ∧ db'.metrics = db.metrics ∧
        db'.events = db.events ∧ db'.hotkeys = db.hotkeys) := by
  constructor
  · intro m hfind
    unfold createOrUseMatch
    simp [hop, hfind]
  · intro hnone
    have hfind : db.matchRows.find?
        (fun m => m.opponent == strip opponent && m.date == date) = none := by
      rw [List.find?_eq_none]
      intro m hm
      simp only [Bool.and_eq_true, beq_iff_eq]
      intro ⟨h1, h2⟩
      exact hnone ⟨m, hm, h1, h2⟩
    refine ⟨{ db with matchRows := db.matchRows ++ [⟨nextId, strip opponent, date⟩] },
      ?_, rfl, rfl, rfl, rfl, rfl⟩
    unfold createOrUseMatch
    rw [if_neg hop, hfind]

/-- C10 witness: on `dbOneMatch`, (Tigers, 2026-01-01) reuses match id 1
with no insert, while (Sharks, 2026-01-01) inserts exactly one new row. -/
theorem createOrUseMatch_dedup_witness :
    createOrUseMatch dbOneMatch "Tigers" "2026-01-01" 5 = some (1, dbOneMatch) ∧
    (∃ db', createOrUseMatch dbOneMatch "Sharks" "2026-01-01" 5 = some (5, db') ∧
      db'.matchRows = dbOneMatch.matchRows ++ [⟨5, "Sharks", "2026-01-01"⟩] ∧
      db'.players = dbOneMatch.players ∧ db'.metrics = dbOneMatch.metrics ∧
      db'.events = dbOneMatch.events ∧ db'.hotkeys = dbOneMatch.hotkeys) :=
  ⟨(createOrUseMatch_dedup dbOneMatch "Tigers" "2026-01-01" 5 (by decide)).1
      ⟨1, "Tigers", "2026-01-01"⟩ (by decide),
   (createOrUseMatch_dedup dbOneMatch "Sharks" "2026-01-01" 5 (by decide)).2 (by decide)⟩

end RugbyStats
